import Mathlib

/-!
Shallow embedding of the geospatial radius-matching engine of
`src/processor.py` (class `RestaurantProcessor`), and proofs of the
spec-level properties of that engine.

Modelling conventions:
* pandas rows become Lean structures; missing (NaN) coordinate cells become
  `Option ℚ`.
* `numpy` floating-point arithmetic is modelled over `ℚ` (exact real
  arithmetic); the trigonometric haversine kernel (the quantity `c` computed
  both inside `BallTree(metric = haversine).query_radius` and in the explicit
  refinement formula of `process_user_batch`) is abstracted as a parameter
  `hav : Coord → Coord → ℚ`, and the degree-to-radian conversion
  `np.radians` as a parameter `rad : ℚ → ℚ`.  All list/str/control-flow
  structure of the Python code is embedded concretely.
* `datetime.time` values become seconds-since-midnight (`Nat`);
  `datetime.strptime(s, "%H:%M:%S")` becomes `parseTime : String → Option Nat`
  (`none` models the `ValueError` caught by `is_open`'s bare `except`).
-/

namespace AffleHaversine

/-- A coordinate pair (latitude, longitude), already radian-converted. -/
abbrev Coord := ℚ × ℚ

/-- Constant `EARTH_RADIUS_KM = 6371.0` from `processor.py`. -/
def EARTH_RADIUS_KM : ℚ := 6371

/-- A row of the restaurant catalog (`restaurants_df`), after the column
selection of `find_available_restaurants`.  `latitude`/`longitude` are
`Option` because pandas cells may be missing (NaN), which `dropna` removes. -/
structure RestRow where
  id : Nat
  latitude : Option ℚ
  longitude : Option ℚ
  availability_radius : ℚ
  open_hour : String
  close_hour : String
deriving DecidableEq

/-- A row of the user table (`users_df`): `USER_LATITUDE`, `USER_LONGITUDE`
in degrees. -/
structure UserRow where
  lat : ℚ
  lon : ℚ
deriving DecidableEq

/-- One output row of `find_available_restaurants`:
`[User_latitude, User_Longitude, Available_restaurant_count, Restaurant_Id's]`. -/
structure OutRow where
  lat : ℚ
  lon : ℚ
  count : Nat
  ids : String
deriving DecidableEq

/-- Split a character list at every occurrence of `sep` (auxiliary). -/
def splitOnCharAux (sep : Char) : List Char → List Char → List (List Char)
  | [], acc => [acc.reverse]
  | c :: cs, acc =>
    if c = sep then acc.reverse :: splitOnCharAux sep cs []
    else splitOnCharAux sep cs (c :: acc)

/-- Split a character list at every occurrence of `sep`. -/
def splitOnChar (sep : Char) (l : List Char) : List (List Char) :=
  splitOnCharAux sep l []

/-- Value of a 1- or 2-digit decimal field, `none` if empty, too long or
non-digit — the acceptance behaviour of one `%H`/`%M`/`%S` field of
`strptime`. -/
def digitsVal (l : List Char) : Option Nat :=
  if l ≠ [] ∧ l.length ≤ 2 ∧ l.all Char.isDigit then
    some (l.foldl (fun n c => 10 * n + (c.toNat - 48)) 0)
  else none

/-- Embedding of `datetime.strptime(s, "%H:%M:%S").time()` as seconds since
midnight;
`none` models the `ValueError` raised on a non-matching string. -/
def parseTime (s : String) : Option Nat :=
  match splitOnChar ':' s.data with
  | [hs, ms, ss] =>
    match digitsVal hs, digitsVal ms, digitsVal ss with
    | some h, some m, some sec =>
      if h < 24 ∧ m < 60 ∧ sec < 60 then some (h * 3600 + m * 60 + sec)
      else none
    | _, _, _ => none
  | _ => none

/-- Embedding of `RestaurantProcessor.is_open`: parse both hour fields; on the strict
comparison `open_time < close_time` use the plain window, otherwise the
overnight (wrap-around) window; any parse failure is caught and yields
`False`. -/
def is_open (row : RestRow) (current_time : Nat) : Bool :=
  match parseTime row.open_hour, parseTime row.close_hour with
  | some open_time, some close_time =>
    if open_time < close_time then
      decide (open_time ≤ current_time) && decide (current_time ≤ close_time)
    else
      decide (current_time ≥ open_time) || decide (current_time ≤ close_time)
  | _, _ => false

/-- An open restaurant as handed to `process_user_batch`: one slot of the
parallel arrays `open_coords` / `open_ids` / `open_radii`. -/
structure OpenRest where
  id : Nat
  coord : Coord
  radius : ℚ
deriving DecidableEq

/-- The annotation step of `find_available_restaurants` (lines 97-98, 107-109):
radian coordinates plus angular radius `availability_radius / EARTH_RADIUS_KM`.
Only applied after the `dropna` filter, so the `getD 0` defaults are never
exercised by the pipeline. -/
def toOpen (rad : ℚ → ℚ) (r : RestRow) : OpenRest :=
  { id := r.id
    coord := (rad (r.latitude.getD 0), rad (r.longitude.getD 0))
    radius := r.availability_radius / EARTH_RADIUS_KM }

/-- The restaurant-side preparation of `find_available_restaurants`:
`dropna(subset=['latitude','longitude'])`, then the `is_open` filter, then
the radian/angular-radius annotation.  (In the source the annotation columns
are added before the `is_open` filter; `is_open` reads only the hour fields,
so filtering first and annotating after is the same function.) -/
def openRests (rad : ℚ → ℚ) (rests : List RestRow) (t : Nat) : List OpenRest :=
  (((rests.filter (fun r => r.latitude.isSome && r.longitude.isSome)).filter
      (fun r => is_open r t)).map (toOpen rad))

/-- Embedding of `open_radii.max()`: maximum of the angular radii (the source only
evaluates it on a non-empty array; `0` is the junk value for `[]`). -/
def maxRadius : List OpenRest → ℚ
  | [] => 0
  | r :: rs => (rs.map (fun x => x.radius)).foldl max r.radius

/-- The coarse phase of `process_user_batch`:
`tree.query_radius(user_coords_batch, r=open_radii.max())` — all open
restaurants whose haversine distance to the user is at most the global
maximum angular radius. -/
def coarseCandidates (hav : Coord → Coord → ℚ) (openRs : List OpenRest)
    (rmax : ℚ) (u : Coord) : List OpenRest :=
  openRs.filter (fun r => decide (hav u r.coord ≤ rmax))

/-- The exact refinement phase of `process_user_batch`:
keep the candidates with `c <= candidate_radii` (each restaurant's own
angular radius). -/
def exactMatches (hav : Coord → Coord → ℚ) (cands : List OpenRest)
    (u : Coord) : List OpenRest :=
  cands.filter (fun r => decide (hav u r.coord ≤ r.radius))

/-- Lexicographic (code-point) `≤` on character lists: the comparison
`np.sort` uses on a string array. -/
def charListLe : List Char → List Char → Bool
  | [], _ => true
  | _ :: _, [] => false
  | a :: as, b :: bs =>
    if a < b then true else if b < a then false else charListLe as bs

/-- Embedding of `np.sort` on a string array: ascending lexicographic
(code-point) order.
A sorted permutation under a linear order is unique, so insertion sort
embeds it exactly. -/
def sortStrings (l : List String) : List String :=
  l.insertionSort (fun a b => charListLe a.data b.data = true)

/-- The per-user body of the loop of `process_user_batch`: coarse query,
exact refinement, then the output row
`[lat, lon, len(matched_ids), ";".join(np.sort(matched_ids))]`. -/
def processUser (hav : Coord → Coord → ℚ) (openRs : List OpenRest)
    (rmax : ℚ) (u : Coord) (latDeg lonDeg : ℚ) : OutRow :=
  let matched := exactMatches hav (coarseCandidates hav openRs rmax u) u
  let strs := sortStrings (matched.map (fun r => toString r.id))
  { lat := latDeg
    lon := lonDeg
    count := matched.length
    ids := String.intercalate ";" strs }

/-- Embedding of `RestaurantProcessor.process_user_batch`: the batch's users are the zip
of `user_coords_batch`, `lat_batch`, `lon_batch`; `open_radii.max()` is
computed once per call. -/
def process_user_batch (hav : Coord → Coord → ℚ)
    (users : List (Coord × ℚ × ℚ)) (openRs : List OpenRest) : List OutRow :=
  let rmax := maxRadius openRs
  users.map (fun u => processUser hav openRs rmax u.1 u.2.1 u.2.2)

/-- Accumulator form of the batching loop: `count` is the remaining capacity
of the current batch, `cur` the current batch reversed. -/
def toBatchesAux (count : Nat) (cur : List α) : List α → List (List α)
  | [] => [cur.reverse]
  | x :: xs =>
    match count with
    | 0 => cur.reverse :: toBatchesAux 4999 [x] xs
    | c + 1 => toBatchesAux c (x :: cur) xs

/-- The batching of `find_available_restaurants`
(`batch_size = 5000`, contiguous slices `user_coords[i:i+batch_size]`);
`toBatches_take_drop` below shows this equals the source's slicing loop. -/
def toBatches : List α → List (List α)
  | [] => []
  | x :: xs => toBatchesAux 4999 [x] xs

/-- Embedding of `RestaurantProcessor.find_available_restaurants` at an already-parsed
query instant `t`: restaurant preparation, the empty-open short-circuit
(`return pd.DataFrame()`), batching, parallel map, and flattening
(`flat_results`). -/
def find_available_core (hav : Coord → Coord → ℚ) (rad : ℚ → ℚ)
    (users : List UserRow) (rests : List RestRow) (t : Nat) : List OutRow :=
  let openRs := openRests rad rests t
  if openRs.isEmpty then []
  else
    let uss := users.map (fun u => ((rad u.lat, rad u.lon), u.lat, u.lon))
    ((toBatches uss).map (fun b => process_user_batch hav b openRs)).flatten

/-- Embedding of `RestaurantProcessor.find_available_restaurants` including the
`strptime(self.static_time, "%H:%M:%S")` step; `none` models the exception
this raises on an unparseable `static_time`. -/
def find_available_restaurants (hav : Coord → Coord → ℚ) (rad : ℚ → ℚ)
    (users : List UserRow) (rests : List RestRow) (staticTime : String) :
    Option (List OutRow) :=
  (parseTime staticTime).map (fun t => find_available_core hav rad users rests t)

/-- Spec-side match predicate (refinement comparison point, following the
spec's words): a restaurant matches a user iff its coordinates are present,
it is open at the query instant, and the haversine distance from the user is
at most its own angular radius `availability_radius / EARTH_RADIUS_KM`. -/
def specMatches (hav : Coord → Coord → ℚ) (rad : ℚ → ℚ) (t : Nat)
    (u : UserRow) (r : RestRow) : Bool :=
  match r.latitude, r.longitude with
  | some la, some lo =>
    is_open r t &&
      decide (hav (rad u.lat, rad u.lon) (rad la, rad lo) ≤
        r.availability_radius / EARTH_RADIUS_KM)
  | _, _ => false

/-- Spec-side output id list for one user: the matching restaurants' ids as
strings, sorted lexicographically. -/
def specSorted (hav : Coord → Coord → ℚ) (rad : ℚ → ℚ) (t : Nat)
    (u : UserRow) (rests : List RestRow) : List String :=
  sortStrings ((rests.filter (specMatches hav rad t u)).map
    (fun r => toString r.id))

/-! ### Supporting lemmas -/

theorem toBatchesAux_eq (c : Nat) (cur l : List α) :
    toBatchesAux c cur l =
      (cur.reverse ++ l.take c) ::
        (if l.length ≤ c then [] else toBatches (l.drop c)) := by
  induction l generalizing c cur with
  | nil => simp [toBatchesAux]
  | cons x xs ih =>
    match c with
    | 0 => simp [toBatchesAux, toBatches]
    | c' + 1 =>
      rw [toBatchesAux, ih]
      simp [List.take_succ_cons, Nat.succ_le_succ_iff]

/-- The batching function computes exactly the contiguous slices
`l[0:5000], l[5000:10000], …` of the source's loop. -/
theorem toBatches_take_drop (l : List α) (h : l ≠ []) :
    toBatches l = l.take 5000 :: toBatches (l.drop 5000) := by
  match l with
  | [] => exact absurd rfl h
  | x :: xs =>
    rw [toBatches, toBatchesAux_eq]
    by_cases hx : xs.length ≤ 4999
    · have hdrop : (x :: xs).drop 5000 = [] := by
        apply List.drop_eq_nil_of_le
        simpa using Nat.succ_le_succ hx
      simp [hx, hdrop, toBatches, List.take_succ_cons]
    · have hdrop : (x :: xs).drop 5000 = xs.drop 4999 := rfl
      simp [hx, hdrop, List.take_succ_cons]

theorem flatten_toBatchesAux (c : Nat) (cur l : List α) :
    (toBatchesAux c cur l).flatten = cur.reverse ++ l := by
  induction l generalizing c cur with
  | nil => simp [toBatchesAux]
  | cons x xs ih =>
    match c with
    | 0 => simp [toBatchesAux, ih]
    | c' + 1 => simp [toBatchesAux, ih]

/-- Concatenating the batches recovers the original list. -/
theorem flatten_toBatches (l : List α) : (toBatches l).flatten = l := by
  match l with
  | [] => rfl
  | x :: xs => rw [toBatches, flatten_toBatchesAux]; rfl

theorem init_le_foldl_max (xs : List ℚ) (b : ℚ) : b ≤ xs.foldl max b := by
  induction xs generalizing b with
  | nil => exact le_refl b
  | cons x xs ih => exact le_trans (le_max_left b x) (ih (max b x))

theorem mem_le_foldl_max (xs : List ℚ) (a b : ℚ) (h : a ∈ xs) :
    a ≤ xs.foldl max b := by
  induction xs generalizing b with
  | nil => cases h
  | cons x xs ih =>
    rcases List.mem_cons.mp h with rfl | h
    · exact le_trans (le_max_right b a) (init_le_foldl_max xs (max b a))
    · exact ih _ h

/-- Every open restaurant's angular radius is bounded by `open_radii.max()`. -/
theorem le_maxRadius {l : List OpenRest} {r : OpenRest} (h : r ∈ l) :
    r.radius ≤ maxRadius l := by
  match l with
  | [] => cases h
  | x :: xs =>
    rcases List.mem_cons.mp h with rfl | h
    · exact init_le_foldl_max _ _
    · exact mem_le_foldl_max _ _ _ (List.mem_map_of_mem (fun y => y.radius) h)

/-- With a parseable `static_time` the wrapper reduces to the core engine. -/
theorem find_available_eq_core {st : String} {t : Nat} (h : parseTime st = some t)
    (hav : Coord → Coord → ℚ) (rad : ℚ → ℚ)
    (users : List UserRow) (rests : List RestRow) :
    find_available_restaurants hav rad users rests st =
      some (find_available_core hav rad users rests t) := by
  simp [find_available_restaurants, h]

theorem process_user_batch_eq_map (hav : Coord → Coord → ℚ)
    (l : List (Coord × ℚ × ℚ)) (openRs : List OpenRest) :
    process_user_batch hav l openRs =
      l.map (fun u => processUser hav openRs (maxRadius openRs) u.1 u.2.1 u.2.2) :=
  rfl

/-- Batch fan-out followed by fan-in equals one call on the whole list. -/
theorem batched_eq_single (hav : Coord → Coord → ℚ)
    (l : List (Coord × ℚ × ℚ)) (openRs : List OpenRest) :
    ((toBatches l).map (fun b => process_user_batch hav b openRs)).flatten =
      process_user_batch hav l openRs := by
  simp only [process_user_batch_eq_map]
  rw [← List.map_flatten, flatten_toBatches]

/-- With a non-empty open set, the core engine is a per-user map. -/
theorem core_eq_map (hav : Coord → Coord → ℚ) (rad : ℚ → ℚ)
    (users : List UserRow) (rests : List RestRow) (t : Nat)
    (hne : openRests rad rests t ≠ []) :
    find_available_core hav rad users rests t =
      users.map (fun u =>
        processUser hav (openRests rad rests t) (maxRadius (openRests rad rests t))
          (rad u.lat, rad u.lon) u.lat u.lon) := by
  unfold find_available_core
  rw [if_neg (by simpa [List.isEmpty_iff] using hne)]
  rw [batched_eq_single, process_user_batch_eq_map, List.map_map]
  rfl

/-- The two-phase (coarse then exact) matched set of the engine equals the
spec-side matched set computed directly from the catalog. -/
theorem matched_eq (hav : Coord → Coord → ℚ) (rad : ℚ → ℚ)
    (rests : List RestRow) (t : Nat) (u : UserRow) :
    exactMatches hav
        (coarseCandidates hav (openRests rad rests t)
          (maxRadius (openRests rad rests t)) (rad u.lat, rad u.lon))
        (rad u.lat, rad u.lon) =
      (rests.filter (specMatches hav rad t u)).map (toOpen rad) := by
  unfold exactMatches coarseCandidates
  rw [List.filter_filter]
  rw [List.filter_congr (q := fun r =>
    decide (hav (rad u.lat, rad u.lon) r.coord ≤ r.radius)) ?ptwise]
  case ptwise =>
    intro x hx
    by_cases hpe : hav (rad u.lat, rad u.lon) x.coord ≤ x.radius
    · simp [hpe, le_trans hpe (le_maxRadius hx)]
    · simp [hpe]
  unfold openRests
  rw [List.filter_map, List.filter_filter, List.filter_filter]
  congr 1
  apply List.filter_congr
  intro r _
  rcases hla : r.latitude with _ | la <;> rcases hlo : r.longitude with _ | lo <;>
    simp [specMatches, toOpen, hla, hlo, Function.comp, Bool.and_comm]

/-- The engine's per-user output row, written with the spec-side match set. -/
theorem processUser_spec (hav : Coord → Coord → ℚ) (rad : ℚ → ℚ)
    (rests : List RestRow) (t : Nat) (u : UserRow) :
    processUser hav (openRests rad rests t) (maxRadius (openRests rad rests t))
        (rad u.lat, rad u.lon) u.lat u.lon =
      { lat := u.lat, lon := u.lon,
        count := (rests.filter (specMatches hav rad t u)).length,
        ids := String.intercalate ";" (specSorted hav rad t u rests) } := by
  unfold processUser
  rw [matched_eq]
  simp only [List.length_map, List.map_map, specSorted]
  rfl

/-- Row `i` of the core output, for a non-empty open set. -/
theorem core_get (hav : Coord → Coord → ℚ) (rad : ℚ → ℚ)
    (users : List UserRow) (rests : List RestRow) (t : Nat)
    (hne : openRests rad rests t ≠ []) (i : Nat) (hi : i < users.length) :
    ∃ hi' : i < (find_available_core hav rad users rests t).length,
      (find_available_core hav rad users rests t).get ⟨i, hi'⟩ =
        { lat := (users.get ⟨i, hi⟩).lat, lon := (users.get ⟨i, hi⟩).lon,
          count := (rests.filter (specMatches hav rad t (users.get ⟨i, hi⟩))).length,
          ids := String.intercalate ";"
            (specSorted hav rad t (users.get ⟨i, hi⟩) rests) } := by
  rw [core_eq_map hav rad users rests t hne]
  refine ⟨by simpa using hi, ?_⟩
  rw [List.get_map]
  exact processUser_spec hav rad rests t (users.get ⟨i, hi⟩)

/-- Membership in the spec-side sorted id list characterises a match, for a
catalog with pairwise-distinct (stringified) ids. -/
theorem mem_specSorted_iff (hav : Coord → Coord → ℚ) (rad : ℚ → ℚ)
    (rests : List RestRow) (t : Nat) (u : UserRow) {r : RestRow} {la lo : ℚ}
    (hnodup : (rests.map (fun x => toString x.id)).Nodup)
    (hr : r ∈ rests) (hla : r.latitude = some la) (hlo : r.longitude = some lo) :
    toString r.id ∈ specSorted hav rad t u rests ↔
      (is_open r t = true ∧
        hav (rad u.lat, rad u.lon) (rad la, rad lo) ≤
          r.availability_radius / EARTH_RADIUS_KM) := by
  unfold specSorted sortStrings
  rw [List.mem_insertionSort]
  constructor
  · intro h
    rcases List.mem_map.mp h with ⟨q, hq, heq⟩
    have hqr : q = r :=
      List.inj_on_of_nodup_map hnodup (List.mem_filter.mp hq).1 hr heq
    have hspec := (List.mem_filter.mp hq).2
    rw [hqr] at hspec
    simpa [specMatches, hla, hlo] using hspec
  · intro h
    apply List.mem_map_of_mem
    rw [List.mem_filter]
    exact ⟨hr, by simp [specMatches, hla, hlo, h.1, h.2]⟩

/-- The open set handed to the matcher is non-empty exactly when some catalog
row has both coordinates present and is open at the query instant. -/
theorem openRests_ne_nil_iff (rad : ℚ → ℚ) (rests : List RestRow) (t : Nat) :
    openRests rad rests t ≠ [] ↔
      ∃ r ∈ rests, r.latitude.isSome = true ∧ r.longitude.isSome = true ∧
        is_open r t = true := by
  unfold openRests
  rw [Ne, List.map_eq_nil_iff, List.filter_filter, List.filter_eq_nil_iff]
  push_neg
  simp only [Bool.and_eq_true]
  tauto

/-! ### Witness fixtures -/

/-- A concrete, kernel-computable stand-in for the abstract haversine kernel,
used to instantiate witnesses: `0` on identical coordinate pairs, `1`
otherwise.  Like the haversine kernel it is nonnegative and zero on the
diagonal. -/
def discreteHav : Coord → Coord → ℚ := fun a b => if a = b then 0 else 1

/-! ### Claims -/

/-- C2 counterexample: a restaurant with `open_hour = close_hour = "12:00:00"`
(so `open_hour ≤ close_hour`, both parseable) is reported open at instant
`00:00:00`, although `open ≤ instant ≤ close` fails — the code branches on the
strict comparison `open_time < close_time`, so the degenerate equal window
falls into the overnight branch and is always open. -/
theorem c2_counterexample :
    parseTime "12:00:00" = some 43200 ∧
    is_open { id := 0, latitude := none, longitude := none,
              availability_radius := 0, open_hour := "12:00:00",
              close_hour := "12:00:00" } 0 = true ∧
    ¬ (43200 ≤ 0 ∧ 0 ≤ 43200) := by
  decide

/-- C2 (amended): for parseable hour fields, when `open_hour < close_hour`
(strictly) the restaurant is open iff `open_hour ≤ instant ≤ close_hour`;
when `open_hour ≥ close_hour` (overnight window, including the degenerate
equal case, which is therefore always open) it is open iff
`instant ≥ open_hour` or `instant ≤ close_hour`. -/
theorem c2_time_window (r : RestRow) (t o c : Nat)
    (ho : parseTime r.open_hour = some o) (hc : parseTime r.close_hour = some c) :
    is_open r t = true ↔
      (if o < c then o ≤ t ∧ t ≤ c else (t ≥ o ∨ t ≤ c)) := by
  unfold is_open
  rw [ho, hc]
  by_cases h : o < c <;> simp [h]

theorem c2_witness :
    parseTime "10:00:00" = some 36000 ∧ parseTime "18:00:00" = some 64800 ∧
    (is_open { id := 0, latitude := none, longitude := none,
               availability_radius := 0, open_hour := "10:00:00",
               close_hour := "18:00:00" } 43200 = true ↔
      (if 36000 < 64800 then 36000 ≤ 43200 ∧ 43200 ≤ 64800
       else (43200 ≥ 36000 ∨ 43200 ≤ 64800))) :=
  ⟨by decide, by decide,
    c2_time_window _ 43200 36000 64800 (by decide) (by decide)⟩

/-- C5: the coarse fixed-radius query at `open_radii.max()` is complete — any
open restaurant whose exact distance to the user is within its own angular
radius is in the coarse candidate set. -/
theorem c5_coarse_superset (hav : Coord → Coord → ℚ) (openRs : List OpenRest)
    (u : Coord) (r : OpenRest) (hr : r ∈ openRs)
    (hm : hav u r.coord ≤ r.radius) :
    r ∈ coarseCandidates hav openRs (maxRadius openRs) u := by
  rw [coarseCandidates, List.mem_filter]
  exact ⟨hr, decide_eq_true (le_trans hm (le_maxRadius hr))⟩

theorem c5_witness :
    (⟨1, (0, 0), 0⟩ : OpenRest) ∈ [(⟨1, (0, 0), 0⟩ : OpenRest)] ∧
    discreteHav (0, 0) (0, 0) ≤ (0 : ℚ) ∧
    (⟨1, (0, 0), 0⟩ : OpenRest) ∈
      coarseCandidates discreteHav [⟨1, (0, 0), 0⟩]
        (maxRadius [⟨1, (0, 0), 0⟩]) (0, 0) :=
  ⟨List.mem_singleton.mpr rfl, by decide,
    c5_coarse_superset discreteHav [⟨1, (0, 0), 0⟩] (0, 0) ⟨1, (0, 0), 0⟩
      (List.mem_singleton.mpr rfl) (by decide)⟩

/-- C8: if either hour field fails to parse, the availability check returns
`false` (the bare `except` catches the `strptime` error); being a total
function, the embedded check never raises. -/
theorem c8_unparseable_closed (r : RestRow) (t : Nat)
    (h : parseTime r.open_hour = none ∨ parseTime r.close_hour = none) :
    is_open r t = false := by
  unfold is_open
  rcases hA : parseTime r.open_hour with _ | o <;>
    rcases hB : parseTime r.close_hour with _ | c <;> simp_all

theorem c8_witness :
    (parseTime "bad" = none ∨ parseTime "23:59:59" = none) ∧
    is_open { id := 0, latitude := none, longitude := none,
              availability_radius := 0, open_hour := "bad",
              close_hour := "23:59:59" } 100 = false :=
  ⟨Or.inl (by decide), c8_unparseable_closed _ 100 (Or.inl (by decide))⟩

/-- C9: (a) every restaurant entering the matcher derives from a catalog row
with both coordinates present; (b) a row with a missing coordinate is dropped:
prepending it to the catalog leaves the matcher input unchanged. -/
theorem c9_dropna (rad : ℚ → ℚ) (rests : List RestRow) (t : Nat) :
    (∀ x ∈ openRests rad rests t, ∃ r ∈ rests, ∃ la lo : ℚ,
        r.latitude = some la ∧ r.longitude = some lo ∧ x = toOpen rad r) ∧
    (∀ r : RestRow, r.latitude = none ∨ r.longitude = none →
        openRests rad (r :: rests) t = openRests rad rests t) := by
  constructor
  · intro x hx
    unfold openRests at hx
    rcases List.mem_map.mp hx with ⟨r, hrmem, rfl⟩
    obtain ⟨hr1, hq1⟩ := List.mem_filter.mp (List.mem_filter.mp hrmem).1
    rcases hla : r.latitude with _ | la
    · rw [hla] at hq1; simp at hq1
    rcases hlo : r.longitude with _ | lo
    · rw [hlo] at hq1; simp at hq1
    exact ⟨r, hr1, la, lo, hla, hlo, rfl⟩
  · intro r h
    unfold openRests
    have hfalse : (r.latitude.isSome && r.longitude.isSome) = false := by
      rcases h with h | h <;> simp [h]
    simp [List.filter_cons, hfalse]

theorem c9_witness :
    ((⟨7, none, some 1, 5, "00:00:00", "23:59:59"⟩ : RestRow).latitude = none ∨
      (⟨7, none, some 1, 5, "00:00:00", "23:59:59"⟩ : RestRow).longitude = none) ∧
    openRests id [⟨7, none, some 1, 5, "00:00:00", "23:59:59"⟩] 43200 =
      openRests id [] 43200 :=
  ⟨Or.inl rfl,
    (c9_dropna id [] 43200).2 ⟨7, none, some 1, 5, "00:00:00", "23:59:59"⟩
      (Or.inl rfl)⟩

/-- C10: chunking the users into batches of 5000, running the per-batch
matcher on each chunk against the shared open-restaurant arrays, and
concatenating in chunk order equals one call on the whole user list. -/
theorem c10_batching (hav : Coord → Coord → ℚ) (users : List (Coord × ℚ × ℚ))
    (openRs : List OpenRest) (hne : openRs ≠ []) :
    ((toBatches users).map (fun b => process_user_batch hav b openRs)).flatten =
      process_user_batch hav users openRs :=
  batched_eq_single hav users openRs

theorem c10_witness :
    ([(⟨1, (0, 0), 0⟩ : OpenRest)] ≠ []) ∧
    ((toBatches [((0, 0), 0, 0), ((1, 1), 1, 1)]).map
        (fun b => process_user_batch discreteHav b [⟨1, (0, 0), 0⟩])).flatten =
      process_user_batch discreteHav [((0, 0), 0, 0), ((1, 1), 1, 1)]
        [⟨1, (0, 0), 0⟩] :=
  ⟨List.cons_ne_nil _ _,
    c10_batching discreteHav [((0, 0), 0, 0), ((1, 1), 1, 1)]
      [⟨1, (0, 0), 0⟩] (List.cons_ne_nil _ _)⟩

/-- C3 counterexample: a restaurant that is open at the query instant but has
missing coordinates is removed by `dropna` before the open-filter, so the
engine returns zero rows for one input user even though at least one
restaurant is open. -/
theorem c3_counterexample :
    is_open ⟨1, none, none, 1, "00:00:00", "23:59:59"⟩ 43200 = true ∧
    parseTime "12:00:00" = some 43200 ∧
    find_available_restaurants discreteHav id [⟨0, 0⟩]
        [⟨1, none, none, 1, "00:00:00", "23:59:59"⟩] "12:00:00" = some [] ∧
    ([] : List OutRow).length ≠ ([⟨0, 0⟩] : List UserRow).length := by
  decide

/-- C3 (amended): if at least one restaurant *with both coordinates present*
is open at the query instant, the output has exactly one row per input user;
if no restaurant at all is open, the engine returns the empty result set (and,
being a total function, does not raise). -/
theorem c3_row_invariant (hav : Coord → Coord → ℚ) (rad : ℚ → ℚ)
    (users : List UserRow) (rests : List RestRow) (st : String) (t : Nat)
    (hst : parseTime st = some t) :
    ∃ out, find_available_restaurants hav rad users rests st = some out ∧
      ((∃ r ∈ rests, r.latitude.isSome = true ∧ r.longitude.isSome = true ∧
          is_open r t = true) → out.length = users.length) ∧
      ((∀ r ∈ rests, is_open r t = false) → out = []) := by
  refine ⟨find_available_core hav rad users rests t,
    find_available_eq_core hst hav rad users rests, ?_, ?_⟩
  · intro hex
    have hne := (openRests_ne_nil_iff rad rests t).mpr hex
    rw [core_eq_map hav rad users rests t hne, List.length_map]
  · intro hall
    have hempty : openRests rad rests t = [] := by
      by_contra hne
      obtain ⟨r, hr, _, _, hopen⟩ := (openRests_ne_nil_iff rad rests t).mp hne
      rw [hall r hr] at hopen
      simp at hopen
    unfold find_available_core
    rw [hempty]
    rfl

theorem c3_witness :
    parseTime "12:00:00" = some 43200 ∧
    (∃ out, find_available_restaurants discreteHav id [⟨0, 0⟩]
        [⟨1, some 0, some 0, 1, "00:00:00", "23:59:59"⟩] "12:00:00" = some out ∧
      ((∃ r ∈ [(⟨1, some 0, some 0, 1, "00:00:00", "23:59:59"⟩ : RestRow)],
          r.latitude.isSome = true ∧ r.longitude.isSome = true ∧
          is_open r 43200 = true) →
        out.length = ([⟨0, 0⟩] : List UserRow).length) ∧
      ((∀ r ∈ [(⟨1, some 0, some 0, 1, "00:00:00", "23:59:59"⟩ : RestRow)],
          is_open r 43200 = false) → out = [])) :=
  ⟨by decide,
    c3_row_invariant discreteHav id [⟨0, 0⟩]
      [⟨1, some 0, some 0, 1, "00:00:00", "23:59:59"⟩] "12:00:00" 43200
      (by decide)⟩

/-- C4: when the output is non-empty, projecting each output row to its
latitude/longitude fields yields exactly the input user list — row `i`
corresponds to input user `i` and echoes the original degree values. -/
theorem c4_order_preservation (hav : Coord → Coord → ℚ) (rad : ℚ → ℚ)
    (users : List UserRow) (rests : List RestRow) (st : String) (t : Nat)
    (out : List OutRow)
    (hst : parseTime st = some t)
    (hout : find_available_restaurants hav rad users rests st = some out)
    (hne : out ≠ []) :
    out.map (fun o => (o.lat, o.lon)) = users.map (fun u => (u.lat, u.lon)) := by
  have hco := find_available_eq_core hst hav rad users rests
  rw [hout] at hco
  obtain rfl := Option.some.inj hco
  by_cases hopen : openRests rad rests t = []
  · exfalso
    apply hne
    unfold find_available_core
    rw [hopen]
    rfl
  · rw [core_eq_map hav rad users rests t hopen, List.map_map]
    rfl

theorem c4_witness :
    parseTime "12:00:00" = some 43200 ∧
    find_available_restaurants discreteHav id [⟨5, 6⟩]
        [⟨1, some 0, some 0, 1, "00:00:00", "23:59:59"⟩] "12:00:00" =
      some (find_available_core discreteHav id [⟨5, 6⟩]
        [⟨1, some 0, some 0, 1, "00:00:00", "23:59:59"⟩] 43200) ∧
    find_available_core discreteHav id [⟨5, 6⟩]
        [⟨1, some 0, some 0, 1, "00:00:00", "23:59:59"⟩] 43200 ≠ [] ∧
    (find_available_core discreteHav id [⟨5, 6⟩]
        [⟨1, some 0, some 0, 1, "00:00:00", "23:59:59"⟩] 43200).map
        (fun o => (o.lat, o.lon)) =
      ([⟨5, 6⟩] : List UserRow).map (fun u => (u.lat, u.lon)) :=
  ⟨by decide,
    find_available_eq_core (by decide) discreteHav id [⟨5, 6⟩]
      [⟨1, some 0, some 0, 1, "00:00:00", "23:59:59"⟩],
    by decide,
    c4_order_preservation discreteHav id [⟨5, 6⟩]
      [⟨1, some 0, some 0, 1, "00:00:00", "23:59:59"⟩] "12:00:00" 43200 _
      (by decide)
      (find_available_eq_core (by decide) discreteHav id [⟨5, 6⟩]
        [⟨1, some 0, some 0, 1, "00:00:00", "23:59:59"⟩])
      (by decide)⟩

/-- C1: for a catalog with distinct ids and a non-empty open set, row `i` of
the output belongs to user `i`; its id string is the join of the spec-side
sorted id list, in which a restaurant's id appears iff the haversine distance
from the user is at most `availability_radius / EARTH_RADIUS_KM` and the
restaurant is open at the query instant; the row's count equals the number of
such restaurants. -/
theorem c1_radius_correctness (hav : Coord → Coord → ℚ) (rad : ℚ → ℚ)
    (users : List UserRow) (rests : List RestRow) (st : String) (t : Nat)
    (out : List OutRow) (i : Nat) (r : RestRow) (la lo : ℚ)
    (hst : parseTime st = some t)
    (hout : find_available_restaurants hav rad users rests st = some out)
    (hnodup : (rests.map (fun x => toString x.id)).Nodup)
    (hopen : openRests rad rests t ≠ [])
    (hi : i < users.length)
    (hr : r ∈ rests) (hla : r.latitude = some la) (hlo : r.longitude = some lo) :
    ∃ hi' : i < out.length,
      (out.get ⟨i, hi'⟩).ids =
        String.intercalate ";" (specSorted hav rad t (users.get ⟨i, hi⟩) rests) ∧
      (toString r.id ∈ specSorted hav rad t (users.get ⟨i, hi⟩) rests ↔
        (hav (rad (users.get ⟨i, hi⟩).lat, rad (users.get ⟨i, hi⟩).lon)
            (rad la, rad lo) ≤ r.availability_radius / EARTH_RADIUS_KM ∧
          is_open r t = true)) ∧
      (out.get ⟨i, hi'⟩).count =
        (rests.filter (specMatches hav rad t (users.get ⟨i, hi⟩))).length := by
  have hco := find_available_eq_core hst hav rad users rests
  rw [hout] at hco
  obtain rfl := Option.some.inj hco
  obtain ⟨hi', hrow⟩ := core_get hav rad users rests t hopen i hi
  refine ⟨hi', ?_, ?_, ?_⟩
  · rw [hrow]
  · exact (mem_specSorted_iff hav rad rests t (users.get ⟨i, hi⟩)
      hnodup hr hla hlo).trans and_comm
  · rw [hrow]

theorem c1_witness :
    parseTime "12:00:00" = some 43200 ∧
    find_available_restaurants discreteHav id [⟨0, 0⟩]
        [⟨1, some 0, some 0, 2, "00:00:00", "23:59:59"⟩] "12:00:00" =
      some (find_available_core discreteHav id [⟨0, 0⟩]
        [⟨1, some 0, some 0, 2, "00:00:00", "23:59:59"⟩] 43200) ∧
    ([(⟨1, some 0, some 0, 2, "00:00:00", "23:59:59"⟩ : RestRow)].map
        (fun x => toString x.id)).Nodup ∧
    openRests id [⟨1, some 0, some 0, 2, "00:00:00", "23:59:59"⟩] 43200 ≠ [] ∧
    (⟨1, some 0, some 0, 2, "00:00:00", "23:59:59"⟩ : RestRow) ∈
      [(⟨1, some 0, some 0, 2, "00:00:00", "23:59:59"⟩ : RestRow)] ∧
    (∃ hi' : 0 < (find_available_core discreteHav id [⟨0, 0⟩]
        [⟨1, some 0, some 0, 2, "00:00:00", "23:59:59"⟩] 43200).length,
      ((find_available_core discreteHav id [⟨0, 0⟩]
          [⟨1, some 0, some 0, 2, "00:00:00", "23:59:59"⟩] 43200).get
        ⟨0, hi'⟩).ids =
        String.intercalate ";"
          (specSorted discreteHav id 43200
            (([⟨0, 0⟩] : List UserRow).get ⟨0, by decide⟩)
            [⟨1, some 0, some 0, 2, "00:00:00", "23:59:59"⟩]) ∧
      (toString (⟨1, some 0, some 0, 2, "00:00:00", "23:59:59"⟩ : RestRow).id ∈
          specSorted discreteHav id 43200
            (([⟨0, 0⟩] : List UserRow).get ⟨0, by decide⟩)
            [⟨1, some 0, some 0, 2, "00:00:00", "23:59:59"⟩] ↔
        (discreteHav
            (id (([⟨0, 0⟩] : List UserRow).get ⟨0, by decide⟩).lat,
              id (([⟨0, 0⟩] : List UserRow).get ⟨0, by decide⟩).lon)
            (id (0 : ℚ), id (0 : ℚ)) ≤ (2 : ℚ) / EARTH_RADIUS_KM ∧
          is_open ⟨1, some 0, some 0, 2, "00:00:00", "23:59:59"⟩ 43200 = true)) ∧
      ((find_available_core discreteHav id [⟨0, 0⟩]
          [⟨1, some 0, some 0, 2, "00:00:00", "23:59:59"⟩] 43200).get
        ⟨0, hi'⟩).count =
        ([(⟨1, some 0, some 0, 2, "00:00:00", "23:59:59"⟩ : RestRow)].filter
          (specMatches discreteHav id 43200
            (([⟨0, 0⟩] : List UserRow).get ⟨0, by decide⟩))).length) :=
  ⟨by decide,
    find_available_eq_core (by decide) discreteHav id [⟨0, 0⟩]
      [⟨1, some 0, some 0, 2, "00:00:00", "23:59:59"⟩],
    by decide, by decide, List.mem_singleton.mpr rfl,
    c1_radius_correctness discreteHav id [⟨0, 0⟩]
      [⟨1, some 0, some 0, 2, "00:00:00", "23:59:59"⟩] "12:00:00" 43200 _ 0
      ⟨1, some 0, some 0, 2, "00:00:00", "23:59:59"⟩ 0 0
      (by decide)
      (find_available_eq_core (by decide) discreteHav id [⟨0, 0⟩]
        [⟨1, some 0, some 0, 2, "00:00:00", "23:59:59"⟩])
      (by decide) (by decide) (by decide)
      (List.mem_singleton.mpr rfl) rfl rfl⟩

/-- C6: each output row's id field is the matched restaurants' ids cast to
strings, sorted lexicographically as strings, joined with `";"`; it is the
empty string when nothing matches. -/
theorem c6_id_formatting (hav : Coord → Coord → ℚ) (rad : ℚ → ℚ)
    (users : List UserRow) (rests : List RestRow) (st : String) (t : Nat)
    (out : List OutRow) (i : Nat)
    (hst : parseTime st = some t)
    (hout : find_available_restaurants hav rad users rests st = some out)
    (hopen : openRests rad rests t ≠ [])
    (hi : i < users.length) :
    ∃ hi' : i < out.length,
      (out.get ⟨i, hi'⟩).ids =
        String.intercalate ";" (specSorted hav rad t (users.get ⟨i, hi⟩) rests) ∧
      (rests.filter (specMatches hav rad t (users.get ⟨i, hi⟩)) = [] →
        (out.get ⟨i, hi'⟩).ids = "") := by
  have hco := find_available_eq_core hst hav rad users rests
  rw [hout] at hco
  obtain rfl := Option.some.inj hco
  obtain ⟨hi', hrow⟩ := core_get hav rad users rests t hopen i hi
  refine ⟨hi', by rw [hrow], ?_⟩
  intro hnil
  rw [hrow]
  simp only [List.get_eq_getElem] at hnil
  simp [specSorted, hnil, sortStrings]
  rfl

theorem c6_witness :
    parseTime "12:00:00" = some 43200 ∧
    find_available_restaurants discreteHav id [⟨0, 0⟩]
        [⟨10, some 0, some 0, 2, "00:00:00", "23:59:59"⟩,
          ⟨2, some 0, some 0, 2, "00:00:00", "23:59:59"⟩] "12:00:00" =
      some (find_available_core discreteHav id [⟨0, 0⟩]
        [⟨10, some 0, some 0, 2, "00:00:00", "23:59:59"⟩,
          ⟨2, some 0, some 0, 2, "00:00:00", "23:59:59"⟩] 43200) ∧
    openRests id [⟨10, some 0, some 0, 2, "00:00:00", "23:59:59"⟩,
        ⟨2, some 0, some 0, 2, "00:00:00", "23:59:59"⟩] 43200 ≠ [] ∧
    processUser discreteHav [⟨10, (0, 0), 1⟩, ⟨2, (0, 0), 1⟩] 1 (0, 0) 0 0 =
      { lat := 0, lon := 0, count := 2, ids := "10;2" } ∧
    (∃ hi' : 0 < (find_available_core discreteHav id [⟨0, 0⟩]
        [⟨10, some 0, some 0, 2, "00:00:00", "23:59:59"⟩,
          ⟨2, some 0, some 0, 2, "00:00:00", "23:59:59"⟩] 43200).length,
      ((find_available_core discreteHav id [⟨0, 0⟩]
          [⟨10, some 0, some 0, 2, "00:00:00", "23:59:59"⟩,
            ⟨2, some 0, some 0, 2, "00:00:00", "23:59:59"⟩] 43200).get
        ⟨0, hi'⟩).ids =
        String.intercalate ";"
          (specSorted discreteHav id 43200
            (([⟨0, 0⟩] : List UserRow).get ⟨0, by decide⟩)
            [⟨10, some 0, some 0, 2, "00:00:00", "23:59:59"⟩,
              ⟨2, some 0, some 0, 2, "00:00:00", "23:59:59"⟩]) ∧
      ([⟨10, some 0, some 0, 2, "00:00:00", "23:59:59"⟩,
          (⟨2, some 0, some 0, 2, "00:00:00", "23:59:59"⟩ : RestRow)].filter
          (specMatches discreteHav id 43200
            (([⟨0, 0⟩] : List UserRow).get ⟨0, by decide⟩)) = [] →
        ((find_available_core discreteHav id [⟨0, 0⟩]
            [⟨10, some 0, some 0, 2, "00:00:00", "23:59:59"⟩,
              ⟨2, some 0, some 0, 2, "00:00:00", "23:59:59"⟩] 43200).get
          ⟨0, hi'⟩).ids = "")) :=
  ⟨by decide,
    find_available_eq_core (by decide) discreteHav id [⟨0, 0⟩]
      [⟨10, some 0, some 0, 2, "00:00:00", "23:59:59"⟩,
        ⟨2, some 0, some 0, 2, "00:00:00", "23:59:59"⟩],
    by decide, by decide,
    c6_id_formatting discreteHav id [⟨0, 0⟩]
      [⟨10, some 0, some 0, 2, "00:00:00", "23:59:59"⟩,
        ⟨2, some 0, some 0, 2, "00:00:00", "23:59:59"⟩] "12:00:00" 43200 _ 0
      (by decide)
      (find_available_eq_core (by decide) discreteHav id [⟨0, 0⟩]
        [⟨10, some 0, some 0, 2, "00:00:00", "23:59:59"⟩,
          ⟨2, some 0, some 0, 2, "00:00:00", "23:59:59"⟩])
      (by decide) (by decide)⟩

/-- C7 counterexample: an always-open restaurant with `availability_radius`
`0` *does* match a user located at exactly its coordinates — the refinement
keeps candidates with `c <= candidate_radii` (not `<`), and `c = 0 ≤ 0`.
(`discreteHav` is `0` on the diagonal, exactly as the haversine kernel is on
coincident coordinates.) -/
theorem c7_counterexample :
    (⟨1, some 0, some 0, 0, "00:00:00", "23:59:59"⟩ : RestRow).availability_radius
      = 0 ∧
    is_open ⟨1, some 0, some 0, 0, "00:00:00", "23:59:59"⟩ 43200 = true ∧
    discreteHav (0, 0) (0, 0) = 0 ∧
    find_available_restaurants discreteHav id [⟨0, 0⟩]
        [⟨1, some 0, some 0, 0, "00:00:00", "23:59:59"⟩] "12:00:00" =
      some [{ lat := 0, lon := 0, count := 1, ids := "1" }] := by
  refine ⟨rfl, by decide, by decide, ?_⟩
  rw [find_available_eq_core (t := 43200) (by decide)]
  rw [core_eq_map _ _ _ _ _ (by decide)]
  simp only [List.map_cons, List.map_nil]
  rw [processUser_spec discreteHav id
    [⟨1, some 0, some 0, 0, "00:00:00", "23:59:59"⟩] 43200 ⟨0, 0⟩]
  have hfil : List.filter
      (specMatches discreteHav id 43200 ⟨0, 0⟩)
      [⟨1, some 0, some 0, 0, "00:00:00", "23:59:59"⟩] =
      [⟨1, some 0, some 0, 0, "00:00:00", "23:59:59"⟩] := by
    have h1 : is_open ⟨1, some 0, some 0, 0, "00:00:00", "23:59:59"⟩ 43200
        = true := by decide
    have h2 : discreteHav 0 0 ≤ (0 : ℚ) := by norm_num [discreteHav]
    simp [specMatches, List.filter, h1, h2]
  simp only [specSorted, hfil]
  decide

/-- C7 (amended): a zero-radius open restaurant appears in the user's matched
ids iff the haversine distance is exactly `0` (e.g. the user sits at the
restaurant's coordinates); at any positive distance it never matches. -/
theorem c7_zero_radius (hav : Coord → Coord → ℚ) (rad : ℚ → ℚ)
    (users : List UserRow) (rests : List RestRow) (st : String) (t : Nat)
    (out : List OutRow) (i : Nat) (r : RestRow) (la lo : ℚ)
    (hst : parseTime st = some t)
    (hout : find_available_restaurants hav rad users rests st = some out)
    (hnodup : (rests.map (fun x => toString x.id)).Nodup)
    (hopen : openRests rad rests t ≠ [])
    (hi : i < users.length)
    (hr : r ∈ rests) (hla : r.latitude = some la) (hlo : r.longitude = some lo)
    (hzero : r.availability_radius = 0)
    (hnn : 0 ≤ hav (rad (users.get ⟨i, hi⟩).lat, rad (users.get ⟨i, hi⟩).lon)
      (rad la, rad lo)) :
    ∃ hi' : i < out.length,
      (out.get ⟨i, hi'⟩).ids =
        String.intercalate ";" (specSorted hav rad t (users.get ⟨i, hi⟩) rests) ∧
      (toString r.id ∈ specSorted hav rad t (users.get ⟨i, hi⟩) rests ↔
        (hav (rad (users.get ⟨i, hi⟩).lat, rad (users.get ⟨i, hi⟩).lon)
            (rad la, rad lo) = 0 ∧ is_open r t = true)) := by
  have hco := find_available_eq_core hst hav rad users rests
  rw [hout] at hco
  obtain rfl := Option.some.inj hco
  obtain ⟨hi', hrow⟩ := core_get hav rad users rests t hopen i hi
  refine ⟨hi', by rw [hrow], ?_⟩
  have base := mem_specSorted_iff hav rad rests t (users.get ⟨i, hi⟩)
    hnodup hr hla hlo
  rw [hzero, zero_div] at base
  have hle : hav (rad (users.get ⟨i, hi⟩).lat, rad (users.get ⟨i, hi⟩).lon)
      (rad la, rad lo) ≤ 0 ↔
      hav (rad (users.get ⟨i, hi⟩).lat, rad (users.get ⟨i, hi⟩).lon)
        (rad la, rad lo) = 0 :=
    ⟨fun h => le_antisymm h hnn, fun h => h.le⟩
  rw [base, hle]
  exact and_comm

theorem c7_witness :
    parseTime "12:00:00" = some 43200 ∧
    find_available_restaurants discreteHav id [⟨0, 0⟩]
        [⟨1, some 0, some 0, 0, "00:00:00", "23:59:59"⟩] "12:00:00" =
      some (find_available_core discreteHav id [⟨0, 0⟩]
        [⟨1, some 0, some 0, 0, "00:00:00", "23:59:59"⟩] 43200) ∧
    (⟨1, some 0, some 0, 0, "00:00:00", "23:59:59"⟩ : RestRow).availability_radius
      = 0 ∧
    0 ≤ discreteHav
      (id (([⟨0, 0⟩] : List UserRow).get ⟨0, by decide⟩).lat,
        id (([⟨0, 0⟩] : List UserRow).get ⟨0, by decide⟩).lon)
      (id (0 : ℚ), id (0 : ℚ)) ∧
    (∃ hi' : 0 < (find_available_core discreteHav id [⟨0, 0⟩]
        [⟨1, some 0, some 0, 0, "00:00:00", "23:59:59"⟩] 43200).length,
      ((find_available_core discreteHav id [⟨0, 0⟩]
          [⟨1, some 0, some 0, 0, "00:00:00", "23:59:59"⟩] 43200).get
        ⟨0, hi'⟩).ids =
        String.intercalate ";"
          (specSorted discreteHav id 43200
            (([⟨0, 0⟩] : List UserRow).get ⟨0, by decide⟩)
            [⟨1, some 0, some 0, 0, "00:00:00", "23:59:59"⟩]) ∧
      (toString (⟨1, some 0, some 0, 0, "00:00:00", "23:59:59"⟩ : RestRow).id ∈
          specSorted discreteHav id 43200
            (([⟨0, 0⟩] : List UserRow).get ⟨0, by decide⟩)
            [⟨1, some 0, some 0, 0, "00:00:00", "23:59:59"⟩] ↔
        (discreteHav
            (id (([⟨0, 0⟩] : List UserRow).get ⟨0, by decide⟩).lat,
              id (([⟨0, 0⟩] : List UserRow).get ⟨0, by decide⟩).lon)
            (id (0 : ℚ), id (0 : ℚ)) = 0 ∧
          is_open ⟨1, some 0, some 0, 0, "00:00:00", "23:59:59"⟩ 43200 = true))) :=
  ⟨by decide,
    find_available_eq_core (by decide) discreteHav id [⟨0, 0⟩]
      [⟨1, some 0, some 0, 0, "00:00:00", "23:59:59"⟩],
    rfl, by decide,
    c7_zero_radius discreteHav id [⟨0, 0⟩]
      [⟨1, some 0, some 0, 0, "00:00:00", "23:59:59"⟩] "12:00:00" 43200 _ 0
      ⟨1, some 0, some 0, 0, "00:00:00", "23:59:59"⟩ 0 0
      (by decide)
      (find_available_eq_core (by decide) discreteHav id [⟨0, 0⟩]
        [⟨1, some 0, some 0, 0, "00:00:00", "23:59:59"⟩])
      (by decide) (by decide) (by decide)
      (List.mem_singleton.mpr rfl) rfl rfl rfl (by decide)⟩

end AffleHaversine
